import Mathlib

/-
Verification of the AlumniConnect backend (main.py).

The backend is a FastAPI service over a MongoDB document store with two
collections, "user" and "event".  We shallowly embed the documents as
association lists from string keys to BSON-like values, the store as lists of
documents in natural (insertion) order together with a fresh-identifier
counter, and each endpoint of main.py as a Lean function on an optional store
handle (the global `db`, which is `None` when the database adapter is not
configured).  The MongoDB operations used by the code (insert_one, find_one,
update_one with a $set document, find with a filter and a limit, and the
$regex / $options "i" operator) are modelled explicitly; $regex is modelled
for the fragment of PCRE the development needs: literal characters matched
case-insensitively under the "i" option, and the '.' wildcard.
-/

/-- A BSON-like stored value: strings, integers, booleans and the opaque
store-assigned ObjectId, modelled as a natural number. -/
inductive BVal where
  | vStr : String → BVal
  | vInt : Int → BVal
  | vBool : Bool → BVal
  | vId : Nat → BVal
deriving DecidableEq

/-- A document (a Python dict / BSON document): an association list of
string keys to values, in insertion order.  Dicts built by the code have
pairwise-distinct keys. -/
abbrev Doc := List (String × BVal)

/-- First-occurrence key lookup, the semantics of `d[k]` / `k in d`. -/
def Doc.lookup (d : Doc) (k : String) : Option BVal :=
  match d with
  | [] => none
  | (k', v) :: rest => if k' = k then some v else Doc.lookup rest k

/-- Remove the first binding of key `k`, the semantics of `d.pop(k)`. -/
def Doc.eraseKey (d : Doc) (k : String) : Doc :=
  match d with
  | [] => []
  | (k', v) :: rest => if k' = k then rest else (k', v) :: Doc.eraseKey rest k

/-- Dict assignment `d[k] = v`: replace the binding in place when the key is
present, otherwise append the new binding at the end. -/
def Doc.set (d : Doc) (k : String) (v : BVal) : Doc :=
  match d with
  | [] => [(k, v)]
  | (k', v') :: rest => if k' = k then (k', v) :: rest else (k', v') :: Doc.set rest k v

/-- Apply every binding of `u` to `d` in order: the semantics of MongoDB's
`update_one(..., {"$set": u})` applied to a single document. -/
def Doc.setAll (d : Doc) (u : Doc) : Doc :=
  match u with
  | [] => d
  | (k, v) :: rest => Doc.setAll (Doc.set d k v) rest

/-- Python `str(value)` as used on the ObjectId in `to_public`; the ObjectId's
string form is modelled by the decimal form of the modelled identifier. -/
def bvalStr : BVal → String
  | .vStr s => s
  | .vInt n => toString n
  | .vBool b => if b then "True" else "False"
  | .vId n => toString n

/-- Python truthiness of an optional document: `None` and the empty dict are
falsy, a non-empty dict is truthy (the `if not doc:` checks in main.py). -/
def truthy (od : Option Doc) : Bool :=
  match od with
  | none => false
  | some d => decide (d ≠ [])

/-- The document store: the "user" and "event" collections in natural
(insertion) order, and the counter supplying fresh ObjectIds. -/
structure DB where
  user : List Doc
  event : List Doc
  nextId : Nat
deriving DecidableEq

/-- MongoDB `insert_one` into the "user" collection: the stored document carries the
fresh ObjectId under "_id"; returns `inserted_id` and the new store. -/
def DB.insertUser (db : DB) (data : Doc) : Nat × DB :=
  (db.nextId,
   { db with user := db.user ++ [("_id", BVal.vId db.nextId) :: data],
             nextId := db.nextId + 1 })

/-- MongoDB `insert_one` into the "event" collection. -/
def DB.insertEvent (db : DB) (data : Doc) : Nat × DB :=
  (db.nextId,
   { db with event := db.event ++ [("_id", BVal.vId db.nextId) :: data],
             nextId := db.nextId + 1 })

/-- A single-key equality filter `{k: v}` applied to a document. -/
def docMatchesEq (k : String) (v : BVal) (d : Doc) : Bool :=
  decide (Doc.lookup d k = some v)

/-- MongoDB `find_one({k: v})`: the first document of the collection, in natural
order, satisfying the equality filter. -/
def find_one_eq (col : List Doc) (k : String) (v : BVal) : Option Doc :=
  match col with
  | [] => none
  | d :: rest => if docMatchesEq k v d then some d else find_one_eq rest k v

/-- MongoDB `update_one({k: v}, {"$set": upd})`: apply `upd` to the first matching
document; returns the new collection and `matched_count`. -/
def updateOneEq (k : String) (v : BVal) (upd : Doc) (col : List Doc) :
    List Doc × Nat :=
  match col with
  | [] => ([], 0)
  | d :: rest =>
    if docMatchesEq k v d then (Doc.setAll d upd :: rest, 1)
    else
      let r := updateOneEq k v upd rest
      (d :: r.1, r.2)

/-- Case-insensitive character equality, the effect of the `$options: "i"`
regex flag on literal characters. -/
def ciEq (a b : Char) : Bool := a.toLower = b.toLower

/-- One regex pattern character against one text character: '.' matches any
character, every other character matches itself case-insensitively.  This is
the fragment of the PCRE semantics of `$regex` that the development needs. -/
def charMatches (p c : Char) : Bool := decide (p = '.') || ciEq p c

/-- Regex pattern match anchored at the start of the text. -/
def regexMatchHere : List Char → List Char → Bool
  | [], _ => true
  | _ :: _, [] => false
  | p :: ps, c :: cs => charMatches p c && regexMatchHere ps cs

/-- Unanchored regex search, the semantics of MongoDB's
`{"$regex": pat, "$options": "i"}`: the pattern matches at some position. -/
def regexSearch (pat : List Char) : List Char → Bool
  | [] => regexMatchHere pat []
  | c :: cs => regexMatchHere pat (c :: cs) || regexSearch pat cs

/-- Spec-side definition (for comparison with the code): case-insensitive
literal match of the needle at the start of the haystack. -/
def ciPrefixAt : List Char → List Char → Bool
  | [], _ => true
  | _ :: _, [] => false
  | a :: as, b :: bs => ciEq a b && ciPrefixAt as bs

/-- Spec-side definition (for comparison with the code): the needle occurs as
a case-insensitive substring of the haystack. -/
def containsCI (pat : List Char) : List Char → Bool
  | [] => ciPrefixAt pat []
  | c :: cs => ciPrefixAt pat (c :: cs) || containsCI pat cs

/-- The request body of POST /auth/signup (`SignupPayload` in main.py):
`name`, `email` and `status` are required, the rest optional. -/
structure SignupPayload where
  name : String
  email : String
  status : String
  phone : Option String := none
  batch_year : Option Int := none
  department : Option String := none
  current_company : Option String := none
  designation : Option String := none
deriving DecidableEq

/-- The request body of PUT /users/profile (`ProfileUpdatePayload`):
every field optional. -/
structure ProfileUpdatePayload where
  name : Option String := none
  phone : Option String := none
  batch_year : Option Int := none
  department : Option String := none
  current_company : Option String := none
  designation : Option String := none
  status : Option String := none
deriving DecidableEq

/-- A field of `model_dump()` kept only when its value is not None. -/
def optField (k : String) (v : Option BVal) : Doc :=
  match v with
  | none => []
  | some x => [(k, x)]

/-- The dict `{k: v for k, v in payload.model_dump().items() if v is not None}` for a
signup payload, in field-declaration order. -/
def signupData (p : SignupPayload) : Doc :=
  [("name", BVal.vStr p.name), ("email", BVal.vStr p.email),
   ("status", BVal.vStr p.status)]
    ++ optField "phone" (p.phone.map BVal.vStr)
    ++ optField "batch_year" (p.batch_year.map BVal.vInt)
    ++ optField "department" (p.department.map BVal.vStr)
    ++ optField "current_company" (p.current_company.map BVal.vStr)
    ++ optField "designation" (p.designation.map BVal.vStr)

/-- The dict `{k: v for k, v in payload.model_dump().items() if v is not None}` for a
profile-update payload, in field-declaration order. -/
def updateData (p : ProfileUpdatePayload) : Doc :=
  optField "name" (p.name.map BVal.vStr)
    ++ optField "phone" (p.phone.map BVal.vStr)
    ++ optField "batch_year" (p.batch_year.map BVal.vInt)
    ++ optField "department" (p.department.map BVal.vStr)
    ++ optField "current_company" (p.current_company.map BVal.vStr)
    ++ optField "designation" (p.designation.map BVal.vStr)
    ++ optField "status" (p.status.map BVal.vStr)

/-- Python `email.split("@")[0]`: the characters of the email before its first '@'
(the whole string when the email has no '@'). -/
def localPart (email : String) : String :=
  String.mk (email.toList.takeWhile (fun c => c != '@'))

/-- The HTTPException failures raised by main.py. -/
inductive ApiErr where
  | dbNotConfigured
  | noFields
  | userNotFound
deriving DecidableEq

/-- The HTTP status code of each failure. -/
def statusCode : ApiErr → Nat
  | .dbNotConfigured => 500
  | .noFields => 400
  | .userNotFound => 404

/-- The body of the signup/login responses: `{"token": email, "user": ...}`. -/
structure AuthResponse where
  token : String
  user : Option Doc
deriving DecidableEq

/-- The helper `to_public(doc)` from main.py: `None` for a falsy input; otherwise a
shallow copy in which, when "_id" is present, it is popped and its string
form re-inserted under "id". -/
def to_public (od : Option Doc) : Option Doc :=
  match od with
  | none => none
  | some d =>
    if d = [] then none
    else
      match Doc.lookup d "_id" with
      | some v => some (Doc.set (Doc.eraseKey d "_id") "id" (BVal.vStr (bvalStr v)))
      | none => some d

/-- POST /auth/signup from main.py.  `existing["_id"]` is modelled with a
dead default value: it is only evaluated when `existing` is truthy, and every
document stored by MongoDB carries "_id" (the invariant `DB.WF` below). -/
def signup (p : SignupPayload) (odb : Option DB) :
    Except ApiErr AuthResponse × Option DB :=
  match odb with
  | none => (Except.error ApiErr.dbNotConfigured, none)
  | some db =>
    let existing := find_one_eq db.user "email" (BVal.vStr p.email)
    let data := signupData p
    if truthy existing then
      let idv := (existing.bind (fun d => Doc.lookup d "_id")).getD (BVal.vId 0)
      let r := updateOneEq "_id" idv data db.user
      let db2 : DB := { db with user := r.1 }
      (Except.ok { token := p.email,
                   user := to_public (find_one_eq db2.user "_id" idv) },
       some db2)
    else
      let r := DB.insertUser db data
      (Except.ok { token := p.email,
                   user := to_public (find_one_eq r.2.user "_id" (BVal.vId r.1)) },
       some r.2)

/-- POST /auth/login from main.py. -/
def login (email : String) (odb : Option DB) :
    Except ApiErr AuthResponse × Option DB :=
  match odb with
  | none => (Except.error ApiErr.dbNotConfigured, none)
  | some db =>
    let doc := find_one_eq db.user "email" (BVal.vStr email)
    if truthy doc then
      (Except.ok { token := email, user := to_public doc }, some db)
    else
      let r := DB.insertUser db
        [("email", BVal.vStr email), ("status", BVal.vStr "student"),
         ("name", BVal.vStr (localPart email))]
      (Except.ok { token := email,
                   user := to_public (find_one_eq r.2.user "_id" (BVal.vId r.1)) },
       some r.2)

/-- GET /users/profile from main.py (read-only). -/
def get_profile (email : String) (odb : Option DB) : Except ApiErr (Option Doc) :=
  match odb with
  | none => Except.error ApiErr.dbNotConfigured
  | some db =>
    let doc := find_one_eq db.user "email" (BVal.vStr email)
    if truthy doc then Except.ok (to_public doc)
    else Except.error ApiErr.userNotFound

/-- PUT /users/profile from main.py. -/
def update_profile (email : String) (p : ProfileUpdatePayload) (odb : Option DB) :
    Except ApiErr (Option Doc) × Option DB :=
  match odb with
  | none => (Except.error ApiErr.dbNotConfigured, none)
  | some db =>
    let updates := updateData p
    if updates = [] then (Except.error ApiErr.noFields, some db)
    else
      let r := updateOneEq "email" (BVal.vStr email) updates db.user
      let db2 : DB := { db with user := r.1 }
      if r.2 = 0 then (Except.error ApiErr.userNotFound, some db2)
      else
        (Except.ok (to_public (find_one_eq db2.user "email" (BVal.vStr email))),
         some db2)

/-- The query filter dict built by GET /directory: each key present only when
the corresponding condition held. -/
structure DirFilter where
  company : Option String
  batch_year : Option Int
deriving DecidableEq

/-- A document against the directory filter: `current_company` by
case-insensitive regex search when the company key is present, `batch_year`
by exact equality when that key is present. -/
def matchesDir (f : DirFilter) (d : Doc) : Bool :=
  (match f.company with
   | none => true
   | some pat =>
     match Doc.lookup d "current_company" with
     | some (BVal.vStr s) => regexSearch pat.toList s.toList
     | _ => false)
  && (match f.batch_year with
      | none => true
      | some y => decide (Doc.lookup d "batch_year" = some (BVal.vInt y)))

/-- GET /directory from main.py: the `if company:` guard adds the regex
filter only for a non-None, non-empty company string; `if batch_year is not
None:` adds the equality filter for every supplied integer, 0 included. -/
def directory (company : Option String) (batch_year : Option Int) (limit : Nat)
    (odb : Option DB) : Except ApiErr (List (Option Doc)) :=
  match odb with
  | none => Except.error ApiErr.dbNotConfigured
  | some db =>
    let filt : DirFilter :=
      { company :=
          match company with
          | some c => if c = "" then none else some c
          | none => none,
        batch_year := batch_year }
    Except.ok (((db.user.filter (fun d => matchesDir filt d)).take limit).map
      (fun d => to_public (some d)))

/-- The hard-coded default event dict of main.py (used both as the
non-persisted fallback response and as the seeded record). -/
def sampleEvent : Doc :=
  [("title", BVal.vStr "Annual Alumni Meet"), ("date", BVal.vStr "2025-02-15"),
   ("description", BVal.vStr "Reconnect with your batch and faculty"),
   ("audience", BVal.vStr "All")]

/-- GET /events from main.py: with no store, the raw sample dict is returned
un-projected and nothing is persisted; otherwise the collection is read with
limit 10, seeded with one sample record when empty, and projected. -/
def events (odb : Option DB) : List (Option Doc) × Option DB :=
  match odb with
  | none => ([some sampleEvent], none)
  | some db =>
    let existing := db.event.take 10
    if existing = [] then
      let r := DB.insertEvent db sampleEvent
      let existing2 := r.2.event.take 10
      (existing2.map (fun d => to_public (some d)), some r.2)
    else
      (existing.map (fun d => to_public (some d)), some db)

/-- Well-formedness of a stored document: it carries an ObjectId under "_id"
below the store's fresh-id counter, and its keys are pairwise distinct (it
came from a Python dict). -/
def DocWF (bound : Nat) (d : Doc) : Prop :=
  (∃ n, n < bound ∧ Doc.lookup d "_id" = some (BVal.vId n)) ∧
    (d.map Prod.fst).Nodup

/-- Well-formedness of the store: every stored document is well-formed and
the "_id" values within each collection are pairwise distinct (MongoDB
assigns a fresh ObjectId to every inserted document). -/
def DB.WF (db : DB) : Prop :=
  (∀ d ∈ db.user, DocWF db.nextId d) ∧
  (∀ d ∈ db.event, DocWF db.nextId d) ∧
  (db.user.map (fun d => Doc.lookup d "_id")).Nodup ∧
  (db.event.map (fun d => Doc.lookup d "_id")).Nodup

/-! ### Lemmas about documents -/

theorem Doc.lookup_set_self (d : Doc) (k : String) (v : BVal) :
    Doc.lookup (Doc.set d k v) k = some v := by
  induction d with
  | nil => simp [Doc.set, Doc.lookup]
  | cons hd tl ih =>
    obtain ⟨k', v'⟩ := hd
    by_cases h : k' = k
    · simp [Doc.set, Doc.lookup, h]
    · simp [Doc.set, Doc.lookup, h, ih]

theorem Doc.lookup_set_ne (d : Doc) (k : String) (v : BVal) (k' : String)
    (h : k' ≠ k) : Doc.lookup (Doc.set d k v) k' = Doc.lookup d k' := by
  induction d with
  | nil =>
    have hne : ¬ k = k' := fun hh => h hh.symm
    simp only [Doc.set, Doc.lookup, if_neg hne]
  | cons hd tl ih =>
    obtain ⟨k0, v0⟩ := hd
    by_cases h0 : k0 = k
    · subst h0
      have hne : ¬ k0 = k' := fun hh => h hh.symm
      simp only [Doc.set, if_pos rfl, Doc.lookup, if_neg hne]
    · simp only [Doc.set, if_neg h0, Doc.lookup]
      by_cases h1 : k0 = k'
      · simp only [if_pos h1]
      · simp only [if_neg h1, ih]

theorem Doc.lookup_eraseKey_ne (d : Doc) (k k' : String) (h : k' ≠ k) :
    Doc.lookup (Doc.eraseKey d k) k' = Doc.lookup d k' := by
  induction d with
  | nil => simp [Doc.eraseKey]
  | cons hd tl ih =>
    obtain ⟨k0, v0⟩ := hd
    by_cases h0 : k0 = k
    · subst h0
      have hne : ¬ k0 = k' := fun hh => h hh.symm
      simp [Doc.eraseKey, Doc.lookup, hne]
    · simp only [Doc.eraseKey, if_neg h0, Doc.lookup]
      by_cases h1 : k0 = k'
      · simp only [if_pos h1]
      · simp only [if_neg h1, ih]

theorem Doc.lookup_none_iff (d : Doc) (k : String) :
    Doc.lookup d k = none ↔ k ∉ d.map Prod.fst := by
  induction d with
  | nil => simp [Doc.lookup]
  | cons hd tl ih =>
    obtain ⟨k0, v0⟩ := hd
    by_cases h0 : k0 = k
    · subst h0
      simp [Doc.lookup]
    · have h1 : ¬ k = k0 := fun hh => h0 hh.symm
      simp [Doc.lookup, h0, h1, ih]

theorem Doc.lookup_eraseKey_self (d : Doc) (k : String)
    (hnd : (d.map Prod.fst).Nodup) : Doc.lookup (Doc.eraseKey d k) k = none := by
  induction d with
  | nil => simp [Doc.eraseKey, Doc.lookup]
  | cons hd tl ih =>
    obtain ⟨k0, v0⟩ := hd
    simp only [List.map_cons, List.nodup_cons] at hnd
    by_cases h0 : k0 = k
    · subst h0
      simp only [Doc.eraseKey, if_pos rfl]
      exact (Doc.lookup_none_iff tl k0).mpr hnd.1
    · simp only [Doc.eraseKey, if_neg h0, Doc.lookup, if_neg h0]
      exact ih hnd.2

theorem Doc.lookup_setAll_none (d u : Doc) (k : String)
    (h : Doc.lookup u k = none) :
    Doc.lookup (Doc.setAll d u) k = Doc.lookup d k := by
  induction u generalizing d with
  | nil => simp [Doc.setAll]
  | cons hd tl ih =>
    obtain ⟨k0, v0⟩ := hd
    by_cases h0 : k0 = k
    · simp only [Doc.lookup, if_pos h0] at h
      exact absurd h (by simp)
    · simp only [Doc.lookup, if_neg h0] at h
      rw [Doc.setAll, ih _ h, Doc.lookup_set_ne _ _ _ _ (fun hh => h0 hh.symm)]

theorem Doc.lookup_setAll_some (d u : Doc) (k : String) (v : BVal)
    (hnd : (u.map Prod.fst).Nodup) (h : Doc.lookup u k = some v) :
    Doc.lookup (Doc.setAll d u) k = some v := by
  induction u generalizing d with
  | nil => simp [Doc.lookup] at h
  | cons hd tl ih =>
    obtain ⟨k0, v0⟩ := hd
    simp only [List.map_cons, List.nodup_cons] at hnd
    by_cases h0 : k0 = k
    · subst h0
      simp [Doc.lookup] at h
      subst h
      rw [Doc.setAll,
        Doc.lookup_setAll_none _ _ _ ((Doc.lookup_none_iff tl k0).mpr hnd.1)]
      exact Doc.lookup_set_self d k0 _
    · simp only [Doc.lookup, if_neg h0] at h
      rw [Doc.setAll]
      exact ih _ hnd.2 h

theorem Doc.mem_keys_set (d : Doc) (k : String) (v : BVal) (a : String) :
    a ∈ (Doc.set d k v).map Prod.fst ↔ a ∈ d.map Prod.fst ∨ a = k := by
  induction d with
  | nil => simp [Doc.set]
  | cons hd tl ih =>
    obtain ⟨k0, v0⟩ := hd
    by_cases h0 : k0 = k
    · subst h0
      have hset : Doc.set ((k0, v0) :: tl) k0 v = (k0, v) :: tl := by
        simp [Doc.set]
      rw [hset]
      simp only [List.map_cons, List.mem_cons]
      tauto
    · simp only [Doc.set, if_neg h0, List.map_cons, List.mem_cons, ih]
      tauto

theorem Doc.nodup_keys_set (d : Doc) (k : String) (v : BVal)
    (hnd : (d.map Prod.fst).Nodup) : ((Doc.set d k v).map Prod.fst).Nodup := by
  induction d with
  | nil => simp [Doc.set]
  | cons hd tl ih =>
    obtain ⟨k0, v0⟩ := hd
    simp only [List.map_cons, List.nodup_cons] at hnd
    by_cases h0 : k0 = k
    · subst h0
      have hset : Doc.set ((k0, v0) :: tl) k0 v = (k0, v) :: tl := by
        simp [Doc.set]
      rw [hset]
      simp only [List.map_cons, List.nodup_cons]
      exact ⟨hnd.1, hnd.2⟩
    · simp only [Doc.set, if_neg h0, List.map_cons, List.nodup_cons]
      refine ⟨?_, ih hnd.2⟩
      intro hmem
      rcases (Doc.mem_keys_set tl k v k0).mp hmem with h | h
      · exact hnd.1 h
      · exact h0 h

theorem Doc.nodup_keys_setAll (d u : Doc)
    (hnd : (d.map Prod.fst).Nodup) : ((Doc.setAll d u).map Prod.fst).Nodup := by
  induction u generalizing d with
  | nil => simpa [Doc.setAll] using hnd
  | cons hd tl ih =>
    obtain ⟨k0, v0⟩ := hd
    rw [Doc.setAll]
    exact ih _ (Doc.nodup_keys_set d k0 v0 hnd)

/-! ### Lemmas about the collection operations -/

theorem docMatchesEq_nonempty {k : String} {v : BVal} {d : Doc}
    (h : docMatchesEq k v d = true) : d ≠ [] := by
  intro he
  subst he
  simp [docMatchesEq, Doc.lookup] at h

theorem find_one_eq_none_iff (col : List Doc) (k : String) (v : BVal) :
    find_one_eq col k v = none ↔ ∀ d ∈ col, docMatchesEq k v d = false := by
  induction col with
  | nil => simp [find_one_eq]
  | cons hd tl ih =>
    by_cases h : docMatchesEq k v hd
    · simp [find_one_eq, h]
    · simp only [find_one_eq, if_neg h, ih, List.mem_cons]
      constructor
      · intro hall d hd'
        rcases hd' with rfl | hd'
        · simpa using h
        · exact hall d hd'
      · intro hall d hd'
        exact hall d (Or.inr hd')

theorem find_one_eq_some_split {col : List Doc} {k : String} {v : BVal} {ex : Doc}
    (h : find_one_eq col k v = some ex) :
    ∃ pre suf, col = pre ++ ex :: suf ∧
      (∀ d ∈ pre, docMatchesEq k v d = false) ∧ docMatchesEq k v ex = true := by
  induction col with
  | nil => simp [find_one_eq] at h
  | cons hd tl ih =>
    by_cases hm : docMatchesEq k v hd
    · refine ⟨[], tl, ?_, ?_, ?_⟩
      · simp only [find_one_eq, if_pos hm, Option.some.injEq] at h
        subst h; rfl
      · simp
      · simp only [find_one_eq, if_pos hm, Option.some.injEq] at h
        subst h; exact hm
    · simp only [find_one_eq, if_neg hm] at h
      obtain ⟨pre, suf, hcol, hpre, hex⟩ := ih h
      refine ⟨hd :: pre, suf, by rw [hcol]; rfl, ?_, hex⟩
      intro d hd'
      rcases List.mem_cons.mp hd' with rfl | hd'
      · simpa using hm
      · exact hpre d hd'

theorem find_one_eq_append_none {pre : List Doc} (rest : List Doc) (k : String)
    (v : BVal) (hpre : ∀ d ∈ pre, docMatchesEq k v d = false) :
    find_one_eq (pre ++ rest) k v = find_one_eq rest k v := by
  induction pre with
  | nil => simp
  | cons hd tl ih =>
    have hh : docMatchesEq k v hd = false := hpre hd (by simp)
    simp only [List.cons_append, find_one_eq, hh, Bool.false_eq_true, if_false]
    exact ih (fun d hd' => hpre d (by simp [hd']))

theorem updateOneEq_no_match {col : List Doc} (k : String) (v : BVal) (upd : Doc)
    (h : ∀ d ∈ col, docMatchesEq k v d = false) :
    updateOneEq k v upd col = (col, 0) := by
  induction col with
  | nil => simp [updateOneEq]
  | cons hd tl ih =>
    have hh : docMatchesEq k v hd = false := h hd (by simp)
    have ht := ih (fun d hd' => h d (by simp [hd']))
    simp [updateOneEq, hh, ht]

theorem updateOneEq_split (pre : List Doc) {ex : Doc} (suf : List Doc)
    (k : String) (v : BVal) (upd : Doc)
    (hpre : ∀ d ∈ pre, docMatchesEq k v d = false)
    (hex : docMatchesEq k v ex = true) :
    updateOneEq k v upd (pre ++ ex :: suf) =
      (pre ++ Doc.setAll ex upd :: suf, 1) := by
  induction pre with
  | nil => simp [updateOneEq, hex]
  | cons hd tl ih =>
    have hh : docMatchesEq k v hd = false := hpre hd (by simp)
    have ht := ih (fun d hd' => hpre d (by simp [hd']))
    simp [updateOneEq, hh, ht]

/-! ### Lemmas about the regex model -/

theorem charMatches_of_ne_dot {p c : Char} (h : p ≠ '.') :
    charMatches p c = ciEq p c := by
  simp [charMatches, h]

theorem regexMatchHere_eq_ciPrefixAt {pat : List Char}
    (h : ∀ c ∈ pat, c ≠ '.') (txt : List Char) :
    regexMatchHere pat txt = ciPrefixAt pat txt := by
  induction pat generalizing txt with
  | nil => cases txt <;> simp [regexMatchHere, ciPrefixAt]
  | cons p ps ih =>
    cases txt with
    | nil => simp [regexMatchHere, ciPrefixAt]
    | cons c cs =>
      have hp : p ≠ '.' := h p (by simp)
      have hps : ∀ c ∈ ps, c ≠ '.' := fun c hc => h c (by simp [hc])
      simp [regexMatchHere, ciPrefixAt, charMatches_of_ne_dot hp, ih hps]

theorem regexSearch_eq_containsCI {pat : List Char}
    (h : ∀ c ∈ pat, c ≠ '.') (txt : List Char) :
    regexSearch pat txt = containsCI pat txt := by
  induction txt with
  | nil => simp [regexSearch, containsCI, regexMatchHere_eq_ciPrefixAt h]
  | cons c cs ih =>
    simp [regexSearch, containsCI, regexMatchHere_eq_ciPrefixAt h, ih]

theorem ne_dot_of_isAlphanum {c : Char} (h : c.isAlphanum = true) : c ≠ '.' := by
  intro he
  subst he
  exact absurd h (by decide)

/-! ### Lemmas about the payload dictionaries -/

theorem signupData_keys (p : SignupPayload) :
    Doc.lookup (signupData p) "_id" = none ∧
    Doc.lookup (signupData p) "email" = some (BVal.vStr p.email) ∧
    ((signupData p).map Prod.fst).Nodup := by
  obtain ⟨n, e, st, o1, o2, o3, o4, o5⟩ := p
  cases o1 <;> cases o2 <;> cases o3 <;> cases o4 <;> cases o5 <;>
    exact ⟨rfl, rfl, by simp [signupData, optField]⟩

set_option maxHeartbeats 2000000 in
theorem updateData_keys (p : ProfileUpdatePayload) :
    Doc.lookup (updateData p) "_id" = none ∧
    Doc.lookup (updateData p) "email" = none ∧
    ((updateData p).map Prod.fst).Nodup := by
  obtain ⟨o1, o2, o3, o4, o5, o6, o7⟩ := p
  cases o1 <;> cases o2 <;> cases o3 <;> cases o4 <;> cases o5 <;> cases o6 <;>
    cases o7 <;> exact ⟨rfl, rfl, by simp [updateData, optField]⟩

set_option maxHeartbeats 2000000 in
theorem updateData_eq_nil_iff (p : ProfileUpdatePayload) :
    updateData p = [] ↔
      p.name = none ∧ p.phone = none ∧ p.batch_year = none ∧
      p.department = none ∧ p.current_company = none ∧
      p.designation = none ∧ p.status = none := by
  obtain ⟨o1, o2, o3, o4, o5, o6, o7⟩ := p
  cases o1 <;> cases o2 <;> cases o3 <;> cases o4 <;> cases o5 <;> cases o6 <;>
    cases o7 <;> simp [updateData, optField]

/-! ### Well-formedness helpers -/

theorem lookup_of_docMatchesEq {k : String} {v : BVal} {d : Doc}
    (h : docMatchesEq k v d = true) : Doc.lookup d k = some v := by
  simpa [docMatchesEq] using h

theorem find_one_eq_matches {col : List Doc} {k : String} {v : BVal} {ex : Doc}
    (h : find_one_eq col k v = some ex) : docMatchesEq k v ex = true := by
  obtain ⟨pre, suf, _, _, hex⟩ := find_one_eq_some_split h
  exact hex

theorem nodup_map_pre {α β : Type} {f : α → β} {pre suf : List α} {ex : α}
    (h : ((pre ++ ex :: suf).map f).Nodup) :
    ∀ d ∈ pre, f d ≠ f ex := by
  induction pre with
  | nil => intro d hd; simp at hd
  | cons hd tl ih =>
    intro d hd'
    rw [List.cons_append, List.map_cons, List.nodup_cons] at h
    rcases List.mem_cons.mp hd' with rfl | hd'
    · intro heq
      apply h.1
      rw [heq]
      exact List.mem_map_of_mem f (by simp)
    · exact ih h.2 d hd'

theorem docWF_no_fresh_match {bound : Nat} {d : Doc} (h : DocWF bound d) :
    docMatchesEq "_id" (BVal.vId bound) d = false := by
  obtain ⟨⟨n, hn, hid⟩, -⟩ := h
  simp only [docMatchesEq, hid, decide_eq_false_iff_not]
  intro hcontra
  simp only [Option.some.injEq, BVal.vId.injEq] at hcontra
  omega

theorem find_insert_fresh {col : List Doc} {bound : Nat}
    (hwf : ∀ d ∈ col, DocWF bound d) (data : Doc) :
    find_one_eq (col ++ [("_id", BVal.vId bound) :: data]) "_id"
      (BVal.vId bound) = some (("_id", BVal.vId bound) :: data) := by
  rw [find_one_eq_append_none _ _ _ (fun d hd => docWF_no_fresh_match (hwf d hd))]
  simp [find_one_eq, docMatchesEq, Doc.lookup]

theorem docWF_setAll {bound : Nat} {d u : Doc} (h : DocWF bound d)
    (hid : Doc.lookup u "_id" = none) : DocWF bound (Doc.setAll d u) := by
  obtain ⟨⟨n, hn, hd⟩, hnd⟩ := h
  exact ⟨⟨n, hn, by rw [Doc.lookup_setAll_none _ _ _ hid]; exact hd⟩,
    Doc.nodup_keys_setAll _ _ hnd⟩

theorem docWF_fresh {bound : Nat} (data : Doc)
    (hnd : (data.map Prod.fst).Nodup) (hid : Doc.lookup data "_id" = none) :
    DocWF (bound + 1) (("_id", BVal.vId bound) :: data) := by
  refine ⟨⟨bound, by omega, by simp [Doc.lookup]⟩, ?_⟩
  simp only [List.map_cons, List.nodup_cons]
  exact ⟨(Doc.lookup_none_iff data "_id").mp hid, hnd⟩

/-! ### Behavior of each endpoint, per branch -/

theorem login_found (email : String) (db : DB) (d : Doc)
    (h : find_one_eq db.user "email" (BVal.vStr email) = some d) :
    login email (some db) =
      (Except.ok { token := email, user := to_public (some d) }, some db) := by
  have hne : d ≠ [] := docMatchesEq_nonempty (find_one_eq_matches h)
  simp [login, h, truthy, hne]

theorem login_not_found (email : String) (db : DB)
    (hwf : ∀ d ∈ db.user, DocWF db.nextId d)
    (h : find_one_eq db.user "email" (BVal.vStr email) = none) :
    login email (some db) =
      (Except.ok { token := email,
                   user := to_public (some (("_id", BVal.vId db.nextId) ::
                     [("email", BVal.vStr email), ("status", BVal.vStr "student"),
                      ("name", BVal.vStr (localPart email))])) },
       some { db with
         user := db.user ++ [("_id", BVal.vId db.nextId) ::
           [("email", BVal.vStr email), ("status", BVal.vStr "student"),
            ("name", BVal.vStr (localPart email))]],
         nextId := db.nextId + 1 }) := by
  have hfind := find_insert_fresh hwf
    [("email", BVal.vStr email), ("status", BVal.vStr "student"),
     ("name", BVal.vStr (localPart email))]
  simp [login, h, truthy, DB.insertUser, hfind]

theorem signup_not_found (p : SignupPayload) (db : DB)
    (hwf : ∀ d ∈ db.user, DocWF db.nextId d)
    (h : find_one_eq db.user "email" (BVal.vStr p.email) = none) :
    signup p (some db) =
      (Except.ok { token := p.email,
                   user := to_public (some (("_id", BVal.vId db.nextId) ::
                     signupData p)) },
       some { db with
         user := db.user ++ [("_id", BVal.vId db.nextId) :: signupData p],
         nextId := db.nextId + 1 }) := by
  have hfind := find_insert_fresh hwf (signupData p)
  simp [signup, h, truthy, DB.insertUser, hfind]

theorem signup_found (p : SignupPayload) (db : DB) (ex : Doc)
    (hwf : ∀ d ∈ db.user, DocWF db.nextId d)
    (hnd : (db.user.map (fun d => Doc.lookup d "_id")).Nodup)
    (h : find_one_eq db.user "email" (BVal.vStr p.email) = some ex) :
    ∃ pre suf, db.user = pre ++ ex :: suf ∧
      (∀ d ∈ pre, docMatchesEq "email" (BVal.vStr p.email) d = false) ∧
      signup p (some db) =
        (Except.ok { token := p.email,
                     user := to_public (some (Doc.setAll ex (signupData p))) },
         some { db with user := pre ++ Doc.setAll ex (signupData p) :: suf }) := by
  obtain ⟨pre, suf, hcol, hpre, hex⟩ := find_one_eq_some_split h
  have hmem : ex ∈ db.user := by rw [hcol]; simp
  obtain ⟨⟨i, hi, hid⟩, hkeys⟩ := hwf ex hmem
  have hne : ex ≠ [] := docMatchesEq_nonempty hex
  have hpreid : ∀ d ∈ pre, docMatchesEq "_id" (BVal.vId i) d = false := by
    intro d hd
    have hneq := nodup_map_pre (f := fun d => Doc.lookup d "_id")
      (by rw [hcol] at hnd; exact hnd) d hd
    simp only [docMatchesEq, decide_eq_false_iff_not]
    intro hcontra
    exact hneq (by simp only at hneq ⊢; rw [hcontra, hid])
  have hup : updateOneEq "_id" (BVal.vId i) (signupData p) db.user =
      (pre ++ Doc.setAll ex (signupData p) :: suf, 1) := by
    rw [hcol]
    exact updateOneEq_split pre suf _ _ _ hpreid (by simp [docMatchesEq, hid])
  have hsetid : Doc.lookup (Doc.setAll ex (signupData p)) "_id" =
      some (BVal.vId i) := by
    rw [Doc.lookup_setAll_none _ _ _ (signupData_keys p).1, hid]
  have hfind2 : find_one_eq (pre ++ Doc.setAll ex (signupData p) :: suf) "_id"
      (BVal.vId i) = some (Doc.setAll ex (signupData p)) := by
    rw [find_one_eq_append_none _ _ _ hpreid]
    simp [find_one_eq, docMatchesEq, hsetid]
  refine ⟨pre, suf, hcol, hpre, ?_⟩
  simp [signup, h, truthy, hne, hid, hup, hfind2]

theorem update_profile_nofields (email : String) (p : ProfileUpdatePayload)
    (db : DB) (h : updateData p = []) :
    update_profile email p (some db) = (Except.error ApiErr.noFields, some db) := by
  simp [update_profile, h]

theorem update_profile_notfound (email : String) (p : ProfileUpdatePayload)
    (db : DB) (hne : updateData p ≠ [])
    (h : find_one_eq db.user "email" (BVal.vStr email) = none) :
    update_profile email p (some db) =
      (Except.error ApiErr.userNotFound, some db) := by
  have hall := (find_one_eq_none_iff _ _ _).mp h
  have hup := updateOneEq_no_match "email" (BVal.vStr email) (updateData p) hall
  simp [update_profile, hne, hup]

theorem update_profile_found (email : String) (p : ProfileUpdatePayload)
    (db : DB) (ex : Doc) (hne : updateData p ≠ [])
    (h : find_one_eq db.user "email" (BVal.vStr email) = some ex) :
    ∃ pre suf, db.user = pre ++ ex :: suf ∧
      update_profile email p (some db) =
        (Except.ok (to_public (some (Doc.setAll ex (updateData p)))),
         some { db with user := pre ++ Doc.setAll ex (updateData p) :: suf }) := by
  obtain ⟨pre, suf, hcol, hpre, hex⟩ := find_one_eq_some_split h
  have hup : updateOneEq "email" (BVal.vStr email) (updateData p) db.user =
      (pre ++ Doc.setAll ex (updateData p) :: suf, 1) := by
    rw [hcol]
    exact updateOneEq_split pre suf _ _ _ hpre hex
  have hsetem : Doc.lookup (Doc.setAll ex (updateData p)) "email" =
      some (BVal.vStr email) := by
    rw [Doc.lookup_setAll_none _ _ _ (updateData_keys p).2.1]
    exact lookup_of_docMatchesEq hex
  have hfind2 : find_one_eq (pre ++ Doc.setAll ex (updateData p) :: suf) "email"
      (BVal.vStr email) = some (Doc.setAll ex (updateData p)) := by
    rw [find_one_eq_append_none _ _ _ hpre]
    simp [find_one_eq, docMatchesEq, hsetem]
  refine ⟨pre, suf, hcol, ?_⟩
  simp [update_profile, hne, hup, hfind2]

theorem get_profile_found (email : String) (db : DB) (d : Doc)
    (h : find_one_eq db.user "email" (BVal.vStr email) = some d) :
    get_profile email (some db) = Except.ok (to_public (some d)) := by
  have hne : d ≠ [] := docMatchesEq_nonempty (find_one_eq_matches h)
  simp [get_profile, h, truthy, hne]

theorem get_profile_notfound (email : String) (db : DB)
    (h : find_one_eq db.user "email" (BVal.vStr email) = none) :
    get_profile email (some db) = Except.error ApiErr.userNotFound := by
  simp [get_profile, h, truthy]

theorem directory_some (company : Option String) (batch_year : Option Int)
    (limit : Nat) (db : DB) :
    directory company batch_year limit (some db) =
      Except.ok (((db.user.filter (fun d => matchesDir
        { company :=
            match company with
            | some c => if c = "" then none else some c
            | none => none,
          batch_year := batch_year } d)).take limit).map
        (fun d => to_public (some d))) := rfl

theorem events_unavailable : events none = ([some sampleEvent], none) := rfl

theorem events_empty (db : DB) (h : db.event = []) :
    events (some db) =
      ([to_public (some (("_id", BVal.vId db.nextId) :: sampleEvent))],
       some { db with
         event := [("_id", BVal.vId db.nextId) :: sampleEvent],
         nextId := db.nextId + 1 }) := by
  simp [events, h, DB.insertEvent]

theorem events_nonempty (db : DB) (h : db.event ≠ []) :
    events (some db) =
      ((db.event.take 10).map (fun d => to_public (some d)), some db) := by
  have ht : db.event.take 10 ≠ [] := by
    cases hd : db.event with
    | nil => exact absurd hd h
    | cons a tl =>
      intro hc
      simp [List.take_eq_nil_iff] at hc
  simp [events, ht]

/-! ### Projection lemmas -/

/-- The external shape of a projected record: no store-native "_id" key, and
an "id" key holding a string. -/
def hasPublicId (d : Doc) : Prop :=
  Doc.lookup d "_id" = none ∧ ∃ s, Doc.lookup d "id" = some (BVal.vStr s)

theorem to_public_with_id {d : Doc} {idv : BVal}
    (hid : Doc.lookup d "_id" = some idv) (hnd : (d.map Prod.fst).Nodup) :
    to_public (some d) =
      some (Doc.set (Doc.eraseKey d "_id") "id" (BVal.vStr (bvalStr idv))) ∧
    Doc.lookup (Doc.set (Doc.eraseKey d "_id") "id" (BVal.vStr (bvalStr idv)))
      "id" = some (BVal.vStr (bvalStr idv)) ∧
    Doc.lookup (Doc.set (Doc.eraseKey d "_id") "id" (BVal.vStr (bvalStr idv)))
      "_id" = none ∧
    (∀ k, k ≠ "_id" → k ≠ "id" →
      Doc.lookup (Doc.set (Doc.eraseKey d "_id") "id" (BVal.vStr (bvalStr idv)))
        k = Doc.lookup d k) := by
  have hne : d ≠ [] := by
    intro he
    subst he
    simp [Doc.lookup] at hid
  refine ⟨by simp [to_public, hne, hid], Doc.lookup_set_self _ _ _, ?_, ?_⟩
  · rw [Doc.lookup_set_ne _ _ _ _ (by decide)]
    exact Doc.lookup_eraseKey_self d "_id" hnd
  · intro k hk1 hk2
    rw [Doc.lookup_set_ne _ _ _ _ hk2, Doc.lookup_eraseKey_ne _ _ _ hk1]

theorem to_public_shape {bound : Nat} {d : Doc} (h : DocWF bound d) :
    ∃ d', to_public (some d) = some d' ∧ hasPublicId d' := by
  obtain ⟨⟨n, -, hid⟩, hnd⟩ := h
  obtain ⟨heq, hidk, hnoid, -⟩ := to_public_with_id hid hnd
  exact ⟨_, heq, hnoid, _, hidk⟩

/-! ### Concrete stores used as witnesses -/

/-- The empty store. -/
def emptyDB : DB := { user := [], event := [], nextId := 0 }

theorem emptyDB_wf : DB.WF emptyDB := by
  refine ⟨?_, ?_, ?_, ?_⟩ <;> simp [emptyDB]

/-- A stored user record. -/
def u1 : Doc :=
  [("_id", BVal.vId 0), ("name", BVal.vStr "Ada"),
   ("email", BVal.vStr "a@x.com"), ("status", BVal.vStr "alumnus")]

/-- A store holding the single user record `u1`. -/
def db1 : DB := { user := [u1], event := [], nextId := 1 }

theorem db1_wf : DB.WF db1 := by
  refine ⟨?_, ?_, ?_, ?_⟩
  · intro d hd
    simp only [db1, List.mem_singleton] at hd
    subst hd
    exact ⟨⟨0, by decide, by simp [u1, Doc.lookup]⟩, by simp [u1]⟩
  · intro d hd
    simp [db1] at hd
  · simp [db1]
  · simp [db1]

/-- A store holding one user whose current_company is "abc". -/
def dbC : DB :=
  { user := [[("_id", BVal.vId 0), ("email", BVal.vStr "u@x.com"),
              ("current_company", BVal.vStr "abc")]],
    event := [], nextId := 1 }

/-! ### Claims -/

/-- C1: a signup whose email matches a stored record merges exactly the
non-null payload fields into that record, leaves every absent (None) field at
its stored value, and returns the updated record; a signup with an unseen
email creates a record holding exactly the present payload fields (plus the
store identifier) and returns it. -/
theorem signup_upsert_merge (p : SignupPayload) (db : DB) (hwf : DB.WF db) :
    (∀ ex, find_one_eq db.user "email" (BVal.vStr p.email) = some ex →
      ∃ pre suf, db.user = pre ++ ex :: suf ∧
        signup p (some db) =
          (Except.ok { token := p.email,
                       user := to_public (some (Doc.setAll ex (signupData p))) },
           some { db with user := pre ++ Doc.setAll ex (signupData p) :: suf }) ∧
        (∀ k v, Doc.lookup (signupData p) k = some v →
          Doc.lookup (Doc.setAll ex (signupData p)) k = some v) ∧
        (∀ k, Doc.lookup (signupData p) k = none →
          Doc.lookup (Doc.setAll ex (signupData p)) k = Doc.lookup ex k)) ∧
    (find_one_eq db.user "email" (BVal.vStr p.email) = none →
      signup p (some db) =
        (Except.ok { token := p.email,
                     user := to_public (some (("_id", BVal.vId db.nextId) ::
                       signupData p)) },
         some { db with
           user := db.user ++ [("_id", BVal.vId db.nextId) :: signupData p],
           nextId := db.nextId + 1 })) := by
  obtain ⟨hwfu, -, hnd, -⟩ := hwf
  constructor
  · intro ex h
    obtain ⟨pre, suf, hcol, -, heq⟩ := signup_found p db ex hwfu hnd h
    refine ⟨pre, suf, hcol, heq, ?_, ?_⟩
    · intro k v hv
      exact Doc.lookup_setAll_some _ _ _ _ (signupData_keys p).2.2 hv
    · intro k hk
      exact Doc.lookup_setAll_none _ _ _ hk
  · intro h
    exact signup_not_found p db hwfu h

/-- A concrete signup payload reusing the stored email of `u1` and carrying a
disjoint optional field. -/
def p1c : SignupPayload :=
  { name := "Bea", email := "a@x.com", status := "student", phone := some "123" }

/-- Witness for C1: the upsert theorem applied to `p1c` against `db1`. -/
theorem signup_upsert_merge_witness :
    DB.WF db1 ∧
    find_one_eq db1.user "email" (BVal.vStr p1c.email) = some u1 ∧
    (∃ pre suf, db1.user = pre ++ u1 :: suf ∧
      signup p1c (some db1) =
        (Except.ok { token := p1c.email,
                     user := to_public (some (Doc.setAll u1 (signupData p1c))) },
         some { db1 with user := pre ++ Doc.setAll u1 (signupData p1c) :: suf }) ∧
      (∀ k v, Doc.lookup (signupData p1c) k = some v →
        Doc.lookup (Doc.setAll u1 (signupData p1c)) k = some v) ∧
      (∀ k, Doc.lookup (signupData p1c) k = none →
        Doc.lookup (Doc.setAll u1 (signupData p1c)) k = Doc.lookup u1 k)) :=
  ⟨db1_wf, rfl, (signup_upsert_merge p1c db1 db1_wf).1 u1 rfl⟩

/-- C2: a login whose email matches a stored record returns that record
(projected) and changes nothing; a login with an unseen email creates and
returns a record whose fields are exactly the email, status "student" and
name = the part of the email before its first '@' (plus the store
identifier). -/
theorem login_find_or_provision (email : String) (db : DB) (hwf : DB.WF db) :
    (∀ d, find_one_eq db.user "email" (BVal.vStr email) = some d →
      login email (some db) =
        (Except.ok { token := email, user := to_public (some d) }, some db)) ∧
    (find_one_eq db.user "email" (BVal.vStr email) = none →
      ∃ rec, rec = [("_id", BVal.vId db.nextId), ("email", BVal.vStr email),
          ("status", BVal.vStr "student"),
          ("name", BVal.vStr (localPart email))] ∧
        login email (some db) =
          (Except.ok { token := email, user := to_public (some rec) },
           some { db with user := db.user ++ [rec], nextId := db.nextId + 1 }) ∧
        Doc.lookup rec "email" = some (BVal.vStr email) ∧
        Doc.lookup rec "status" = some (BVal.vStr "student") ∧
        Doc.lookup rec "name" = some (BVal.vStr (localPart email)) ∧
        (∀ k, k ≠ "_id" → k ≠ "email" → k ≠ "status" → k ≠ "name" →
          Doc.lookup rec k = none)) := by
  obtain ⟨hwfu, -, -, -⟩ := hwf
  constructor
  · intro d h
    exact login_found email db d h
  · intro h
    refine ⟨_, rfl, login_not_found email db hwfu h, ?_, ?_, ?_, ?_⟩
    · simp [Doc.lookup]
    · simp [Doc.lookup]
    · simp [Doc.lookup]
    · intro k h1 h2 h3 h4
      simp [Doc.lookup, Ne.symm h1, Ne.symm h2, Ne.symm h3, Ne.symm h4]

/-- Witness for C2: login for the never-seen email "new@x.com" on the empty
store; the provisioned name is "new". -/
theorem login_find_or_provision_witness :
    DB.WF emptyDB ∧
    find_one_eq emptyDB.user "email" (BVal.vStr "new@x.com") = none ∧
    localPart "new@x.com" = "new" ∧
    (∃ rec, rec = [("_id", BVal.vId emptyDB.nextId),
        ("email", BVal.vStr "new@x.com"), ("status", BVal.vStr "student"),
        ("name", BVal.vStr (localPart "new@x.com"))] ∧
      login "new@x.com" (some emptyDB) =
        (Except.ok { token := "new@x.com", user := to_public (some rec) },
         some { emptyDB with user := emptyDB.user ++ [rec],
                             nextId := emptyDB.nextId + 1 }) ∧
      Doc.lookup rec "email" = some (BVal.vStr "new@x.com") ∧
      Doc.lookup rec "status" = some (BVal.vStr "student") ∧
      Doc.lookup rec "name" = some (BVal.vStr (localPart "new@x.com")) ∧
      (∀ k, k ≠ "_id" → k ≠ "email" → k ≠ "status" → k ≠ "name" →
        Doc.lookup rec k = none)) :=
  ⟨emptyDB_wf, rfl, rfl,
   (login_find_or_provision "new@x.com" emptyDB emptyDB_wf).2 rfl⟩

/-- C3: a profile update whose body carries no recognized non-null field
fails with the 400 NoFieldsProvided error and leaves the store unchanged;
otherwise, when no record matches the email it fails with the 404
UserNotFound error; otherwise the non-null fields are merged into the
matching record and the projected post-update record is returned. -/
theorem update_profile_semantics (email : String) (p : ProfileUpdatePayload)
    (db : DB) :
    (updateData p = [] ↔
      p.name = none ∧ p.phone = none ∧ p.batch_year = none ∧
      p.department = none ∧ p.current_company = none ∧
      p.designation = none ∧ p.status = none) ∧
    (updateData p = [] →
      update_profile email p (some db) = (Except.error ApiErr.noFields, some db) ∧
      statusCode ApiErr.noFields = 400) ∧
    (updateData p ≠ [] → find_one_eq db.user "email" (BVal.vStr email) = none →
      update_profile email p (some db) =
        (Except.error ApiErr.userNotFound, some db) ∧
      statusCode ApiErr.userNotFound = 404) ∧
    (∀ ex, updateData p ≠ [] →
      find_one_eq db.user "email" (BVal.vStr email) = some ex →
      ∃ pre suf, db.user = pre ++ ex :: suf ∧
        update_profile email p (some db) =
          (Except.ok (to_public (some (Doc.setAll ex (updateData p)))),
           some { db with user := pre ++ Doc.setAll ex (updateData p) :: suf }) ∧
        (∀ k v, Doc.lookup (updateData p) k = some v →
          Doc.lookup (Doc.setAll ex (updateData p)) k = some v) ∧
        (∀ k, Doc.lookup (updateData p) k = none →
          Doc.lookup (Doc.setAll ex (updateData p)) k = Doc.lookup ex k)) := by
  refine ⟨updateData_eq_nil_iff p, ?_, ?_, ?_⟩
  · intro h
    exact ⟨update_profile_nofields email p db h, rfl⟩
  · intro hne h
    exact ⟨update_profile_notfound email p db hne h, rfl⟩
  · intro ex hne h
    obtain ⟨pre, suf, hcol, heq⟩ := update_profile_found email p db ex hne h
    refine ⟨pre, suf, hcol, heq, ?_, ?_⟩
    · intro k v hv
      exact Doc.lookup_setAll_some _ _ _ _ (updateData_keys p).2.2 hv
    · intro k hk
      exact Doc.lookup_setAll_none _ _ _ hk

/-- The all-absent profile-update payload. -/
def pEmpty : ProfileUpdatePayload := {}

/-- Witness for C3: the empty-body update against `db1` fails with the 400
error and leaves the store unchanged. -/
theorem update_profile_semantics_witness :
    updateData pEmpty = [] ∧
    update_profile "a@x.com" pEmpty (some db1) =
      (Except.error ApiErr.noFields, some db1) ∧
    statusCode ApiErr.noFields = 400 :=
  ⟨rfl, (update_profile_semantics "a@x.com" pEmpty db1).2.1 rfl⟩

theorem matchesDir_iff (pat : String) (year : Option Int) (d : Doc) :
    matchesDir { company := some pat, batch_year := year } d = true ↔
      ((∃ s, Doc.lookup d "current_company" = some (BVal.vStr s) ∧
          regexSearch pat.toList s.toList = true) ∧
       (∀ y, year = some y → Doc.lookup d "batch_year" = some (BVal.vInt y))) := by
  cases hcc : Doc.lookup d "current_company" with
  | none => simp [matchesDir, hcc]
  | some v =>
    cases v with
    | vStr s =>
      cases year with
      | none => simp [matchesDir, hcc]
      | some y => simp [matchesDir, hcc]
    | vInt n => simp [matchesDir, hcc]
    | vBool b => simp [matchesDir, hcc]
    | vId n => simp [matchesDir, hcc]

/-- C4 (amended): a non-empty company filter matches a record exactly when
the filter string, as a case-insensitive regular expression, matches
somewhere inside the record's current_company; for filter strings made only
of alphanumeric characters (no regex metacharacters) this coincides with
case-insensitive substring containment; a batch_year filter is exact
equality; both filters combine as a logical AND. -/
theorem directory_company_regex_and_year (pat : String) (year : Option Int)
    (limit : Nat) (db : DB) (hne : pat ≠ "")
    (hlit : ∀ c ∈ pat.toList, c.isAlphanum = true) :
    directory (some pat) year limit (some db) =
      Except.ok (((db.user.filter (fun d =>
        matchesDir { company := some pat, batch_year := year } d)).take
          limit).map (fun d => to_public (some d))) ∧
    (∀ d, matchesDir { company := some pat, batch_year := year } d = true ↔
      ((∃ s, Doc.lookup d "current_company" = some (BVal.vStr s) ∧
          containsCI pat.toList s.toList = true) ∧
       (∀ y, year = some y → Doc.lookup d "batch_year" = some (BVal.vInt y)))) := by
  have hdot : ∀ c ∈ pat.toList, c ≠ '.' :=
    fun c hc => ne_dot_of_isAlphanum (hlit c hc)
  constructor
  · rw [directory_some]
    simp [hne]
  · intro d
    rw [matchesDir_iff]
    constructor
    · rintro ⟨⟨s, hs, hr⟩, hy⟩
      exact ⟨⟨s, hs, by rw [← regexSearch_eq_containsCI hdot]; exact hr⟩, hy⟩
    · rintro ⟨⟨s, hs, hc⟩, hy⟩
      exact ⟨⟨s, hs, by rw [regexSearch_eq_containsCI hdot]; exact hc⟩, hy⟩

/-- Witness for C4 (amended) at the filter strings of the spec's own test
line: company "acme", batch_year 2020, against `db1`. -/
theorem directory_company_regex_and_year_witness :
    ("acme" ≠ "" ∧ ∀ c ∈ "acme".toList, c.isAlphanum = true) ∧
    (directory (some "acme") (some 2020) 50 (some db1) =
      Except.ok (((db1.user.filter (fun d =>
        matchesDir { company := some "acme", batch_year := some 2020 } d)).take
          50).map (fun d => to_public (some d))) ∧
    (∀ d, matchesDir { company := some "acme", batch_year := some 2020 } d
        = true ↔
      ((∃ s, Doc.lookup d "current_company" = some (BVal.vStr s) ∧
          containsCI "acme".toList s.toList = true) ∧
       (∀ y, (some 2020 : Option Int) = some y →
          Doc.lookup d "batch_year" = some (BVal.vInt y))))) :=
  ⟨⟨by decide, by decide⟩,
   directory_company_regex_and_year "acme" (some 2020) 50 db1 (by decide)
     (by decide)⟩

/-- Counterexample to C4 as stated: the company filter "a.c" is applied as a
regex, so the record of `dbC` with current_company "abc" is returned by the
directory search although "a.c" is not a case-insensitive substring of
"abc". -/
theorem directory_substring_claim_false :
    directory (some "a.c") none 50 (some dbC) =
      Except.ok [some [("email", BVal.vStr "u@x.com"),
                       ("current_company", BVal.vStr "abc"),
                       ("id", BVal.vStr "0")]] ∧
    containsCI "a.c".toList "abc".toList = false ∧
    Doc.lookup [("_id", BVal.vId 0), ("email", BVal.vStr "u@x.com"),
      ("current_company", BVal.vStr "abc")] "current_company" =
        some (BVal.vStr "abc") :=
  ⟨rfl, rfl, rfl⟩

/-- C5: with no store, the events endpoint returns the single hard-coded
sample event and persists nothing; with an empty events collection it seeds
exactly one default record, re-reads and returns it, and an immediately
following call returns the same single record without a second insert; with
a non-empty collection it returns up to 10 stored records as-is
(projected). -/
theorem events_seed_once (db : DB) :
    events none = ([some sampleEvent], none) ∧
    (db.event = [] →
      events (some db) =
        ([to_public (some (("_id", BVal.vId db.nextId) :: sampleEvent))],
         some { db with
           event := [("_id", BVal.vId db.nextId) :: sampleEvent],
           nextId := db.nextId + 1 }) ∧
      events (some { db with
          event := [("_id", BVal.vId db.nextId) :: sampleEvent],
          nextId := db.nextId + 1 }) =
        ([to_public (some (("_id", BVal.vId db.nextId) :: sampleEvent))],
         some { db with
           event := [("_id", BVal.vId db.nextId) :: sampleEvent],
           nextId := db.nextId + 1 })) ∧
    (db.event ≠ [] →
      events (some db) =
        ((db.event.take 10).map (fun d => to_public (some d)), some db)) := by
  refine ⟨events_unavailable, ?_, events_nonempty db⟩
  intro h
  refine ⟨events_empty db h, ?_⟩
  have h2 := events_nonempty
    { db with event := [("_id", BVal.vId db.nextId) :: sampleEvent],
              nextId := db.nextId + 1 } (by simp)
  simpa using h2

/-- Witness for C5: the seed-then-reread behavior on the empty store. -/
theorem events_seed_once_witness :
    emptyDB.event = [] ∧
    (events (some emptyDB) =
      ([to_public (some (("_id", BVal.vId emptyDB.nextId) :: sampleEvent))],
       some { emptyDB with
         event := [("_id", BVal.vId emptyDB.nextId) :: sampleEvent],
         nextId := emptyDB.nextId + 1 }) ∧
     events (some { emptyDB with
         event := [("_id", BVal.vId emptyDB.nextId) :: sampleEvent],
         nextId := emptyDB.nextId + 1 }) =
       ([to_public (some (("_id", BVal.vId emptyDB.nextId) :: sampleEvent))],
        some { emptyDB with
          event := [("_id", BVal.vId emptyDB.nextId) :: sampleEvent],
          nextId := emptyDB.nextId + 1 })) :=
  ⟨rfl, (events_seed_once emptyDB).2.1 rfl⟩

/-- Counterexample to C6 as stated: projecting an empty record (a dict with
no fields, which is falsy in Python) yields None rather than an unchanged
shallow copy of the record. -/
theorem to_public_empty_record :
    to_public (some ([] : Doc)) = none ∧ (none : Option Doc) ≠ some ([] : Doc) :=
  ⟨rfl, by decide⟩

/-- C6 (amended): projecting no record or an empty record gives None;
projecting a non-empty record (with pairwise-distinct keys) removes the
internal "_id" binding when present and re-inserts its string form under
"id", leaving every other field unchanged; a non-empty record without "_id"
is returned unchanged. -/
theorem to_public_projection (d : Doc) (hne : d ≠ [])
    (hnd : (d.map Prod.fst).Nodup) :
    to_public none = none ∧
    to_public (some ([] : Doc)) = none ∧
    (∀ v, Doc.lookup d "_id" = some v →
      to_public (some d) =
        some (Doc.set (Doc.eraseKey d "_id") "id" (BVal.vStr (bvalStr v))) ∧
      Doc.lookup (Doc.set (Doc.eraseKey d "_id") "id" (BVal.vStr (bvalStr v)))
        "id" = some (BVal.vStr (bvalStr v)) ∧
      Doc.lookup (Doc.set (Doc.eraseKey d "_id") "id" (BVal.vStr (bvalStr v)))
        "_id" = none ∧
      (∀ k, k ≠ "_id" → k ≠ "id" →
        Doc.lookup (Doc.set (Doc.eraseKey d "_id") "id" (BVal.vStr (bvalStr v)))
          k = Doc.lookup d k)) ∧
    (Doc.lookup d "_id" = none → to_public (some d) = some d) := by
  refine ⟨rfl, rfl, ?_, ?_⟩
  · intro v hv
    exact to_public_with_id hv hnd
  · intro hv
    simp [to_public, hne, hv]

/-- Witness for C6 (amended) at the concrete stored record `u1`. -/
theorem to_public_projection_witness :
    (u1 ≠ [] ∧ (u1.map Prod.fst).Nodup) ∧
    (to_public none = none ∧
     to_public (some ([] : Doc)) = none ∧
     (∀ v, Doc.lookup u1 "_id" = some v →
       to_public (some u1) =
         some (Doc.set (Doc.eraseKey u1 "_id") "id" (BVal.vStr (bvalStr v))) ∧
       Doc.lookup (Doc.set (Doc.eraseKey u1 "_id") "id" (BVal.vStr (bvalStr v)))
         "id" = some (BVal.vStr (bvalStr v)) ∧
       Doc.lookup (Doc.set (Doc.eraseKey u1 "_id") "id" (BVal.vStr (bvalStr v)))
         "_id" = none ∧
       (∀ k, k ≠ "_id" → k ≠ "id" →
         Doc.lookup (Doc.set (Doc.eraseKey u1 "_id") "id"
           (BVal.vStr (bvalStr v))) k = Doc.lookup u1 k)) ∧
     (Doc.lookup u1 "_id" = none → to_public (some u1) = some u1)) :=
  ⟨⟨by decide, by decide⟩, to_public_projection u1 (by decide) (by decide)⟩

/-- Counterexample to C7 as stated: when the store is unavailable the events
endpoint succeeds (HTTP 200) and returns the raw sample event dict, which
carries no "id" key at all. -/
theorem sample_event_lacks_id :
    events none = ([some sampleEvent], none) ∧
    Doc.lookup sampleEvent "id" = none ∧
    Doc.lookup sampleEvent "_id" = none :=
  ⟨rfl, rfl, rfl⟩

/-- C7 (amended): every record returned on a success path by the
store-backed endpoints carries "id" (a string) and never the store-native
"_id"; the raw sample event returned by the events endpoint when the store
is unavailable carries no identifier at all. -/
theorem responses_carry_external_id (db : DB) (hwf : DB.WF db) :
    (∀ p r odb', signup p (some db) = (Except.ok r, odb') →
      ∀ d, r.user = some d → hasPublicId d) ∧
    (∀ e r odb', login e (some db) = (Except.ok r, odb') →
      ∀ d, r.user = some d → hasPublicId d) ∧
    (∀ e rd, get_profile e (some db) = Except.ok rd →
      ∀ d, rd = some d → hasPublicId d) ∧
    (∀ e p rd odb', update_profile e p (some db) = (Except.ok rd, odb') →
      ∀ d, rd = some d → hasPublicId d) ∧
    (∀ c y l rds, directory c y l (some db) = Except.ok rds →
      ∀ rd ∈ rds, ∀ d, rd = some d → hasPublicId d) ∧
    (∀ rds odb', events (some db) = (rds, odb') →
      ∀ rd ∈ rds, ∀ d, rd = some d → hasPublicId d) ∧
    (∀ rd ∈ (events none).1, ∀ d, rd = some d →
      Doc.lookup d "_id" = none ∧ Doc.lookup d "id" = none) := by
  obtain ⟨hwfu, hwfe, hnd, -⟩ := hwf
  have hp : ∀ {bound : Nat} (d0 : Doc), DocWF bound d0 →
      ∀ d, to_public (some d0) = some d → hasPublicId d := by
    intro bound d0 h0 d hd
    obtain ⟨d', hd', hok⟩ := to_public_shape h0
    rw [hd'] at hd
    cases hd
    exact hok
  refine ⟨?_, ?_, ?_, ?_, ?_, ?_, ?_⟩
  · intro p r odb' heq d hd
    cases hfind : find_one_eq db.user "email" (BVal.vStr p.email) with
    | some ex =>
      obtain ⟨pre, suf, hcol, -, heq2⟩ := signup_found p db ex hwfu hnd hfind
      rw [heq2] at heq
      injection heq with h1 h2
      injection h1 with h1
      subst h1
      have hd' : to_public (some (Doc.setAll ex (signupData p))) = some d := hd
      have hex_wf : DocWF db.nextId ex := hwfu ex (by rw [hcol]; simp)
      exact hp _ (docWF_setAll hex_wf (signupData_keys p).1) d hd'
    | none =>
      rw [signup_not_found p db hwfu hfind] at heq
      injection heq with h1 h2
      injection h1 with h1
      subst h1
      have hd' : to_public (some (("_id", BVal.vId db.nextId) ::
        signupData p)) = some d := hd
      have hfr : DocWF (db.nextId + 1)
          (("_id", BVal.vId db.nextId) :: signupData p) :=
        docWF_fresh _ (signupData_keys p).2.2 (signupData_keys p).1
      exact hp _ hfr d hd'
  · intro e r odb' heq d hd
    cases hfind : find_one_eq db.user "email" (BVal.vStr e) with
    | some ex =>
      rw [login_found e db ex hfind] at heq
      injection heq with h1 h2
      injection h1 with h1
      subst h1
      have hd' : to_public (some ex) = some d := hd
      have hex_wf : DocWF db.nextId ex := by
        obtain ⟨pre, suf, hcol, -, -⟩ := find_one_eq_some_split hfind
        exact hwfu ex (by rw [hcol]; simp)
      exact hp _ hex_wf d hd'
    | none =>
      rw [login_not_found e db hwfu hfind] at heq
      injection heq with h1 h2
      injection h1 with h1
      subst h1
      have hd' : to_public (some (("_id", BVal.vId db.nextId) ::
        [("email", BVal.vStr e), ("status", BVal.vStr "student"),
         ("name", BVal.vStr (localPart e))])) = some d := hd
      have hfr : DocWF (db.nextId + 1) (("_id", BVal.vId db.nextId) ::
          [("email", BVal.vStr e), ("status", BVal.vStr "student"),
           ("name", BVal.vStr (localPart e))]) :=
        docWF_fresh _ (by simp) (by simp [Doc.lookup])
      exact hp _ hfr d hd'
  · intro e rd heq d hd
    cases hfind : find_one_eq db.user "email" (BVal.vStr e) with
    | some dx =>
      rw [get_profile_found e db dx hfind] at heq
      injection heq with h1
      subst h1
      have hwfx : DocWF db.nextId dx := by
        obtain ⟨pre, suf, hcol, -, -⟩ := find_one_eq_some_split hfind
        exact hwfu dx (by rw [hcol]; simp)
      exact hp _ hwfx d hd
    | none =>
      rw [get_profile_notfound e db hfind] at heq
      simp at heq
  · intro e p rd odb' heq d hd
    by_cases hupd : updateData p = []
    · rw [update_profile_nofields e p db hupd] at heq
      simp at heq
    · cases hfind : find_one_eq db.user "email" (BVal.vStr e) with
      | none =>
        rw [update_profile_notfound e p db hupd hfind] at heq
        simp at heq
      | some ex =>
        obtain ⟨pre, suf, hcol, heq2⟩ := update_profile_found e p db ex hupd hfind
        rw [heq2] at heq
        injection heq with h1 h2
        injection h1 with h1
        subst h1
        have hex_wf : DocWF db.nextId ex := hwfu ex (by rw [hcol]; simp)
        exact hp _ (docWF_setAll hex_wf (updateData_keys p).1) d hd
  · intro c y l rds heq rd hrd d hd
    rw [directory_some] at heq
    injection heq with h1
    subst h1
    obtain ⟨d0, hd0, hval⟩ := List.mem_map.mp hrd
    have hd0mem : d0 ∈ db.user :=
      (List.mem_filter.mp (List.take_subset _ _ hd0)).1
    have hwfx := hwfu d0 hd0mem
    rw [← hval] at hd
    exact hp _ hwfx d hd
  · intro rds odb' heq rd hrd d hd
    by_cases hev : db.event = []
    · rw [events_empty db hev] at heq
      injection heq with h1 h2
      subst h1
      simp only [List.mem_singleton] at hrd
      subst hrd
      have hfr : DocWF (db.nextId + 1)
          (("_id", BVal.vId db.nextId) :: sampleEvent) :=
        docWF_fresh _ (by decide) (by decide)
      exact hp _ hfr d hd
    · rw [events_nonempty db hev] at heq
      injection heq with h1 h2
      subst h1
      obtain ⟨d0, hd0, hval⟩ := List.mem_map.mp hrd
      have hd0mem : d0 ∈ db.event := List.take_subset _ _ hd0
      have hwfx := hwfe d0 hd0mem
      rw [← hval] at hd
      exact hp _ hwfx d hd
  · intro rd hrd d hd
    simp only [events, List.mem_singleton] at hrd
    subst hrd
    cases hd
    exact ⟨rfl, rfl⟩

/-- Witness for C7 (amended) at the concrete well-formed store `db1`. -/
theorem responses_carry_external_id_witness :
    DB.WF db1 ∧
    ((∀ p r odb', signup p (some db1) = (Except.ok r, odb') →
      ∀ d, r.user = some d → hasPublicId d) ∧
    (∀ e r odb', login e (some db1) = (Except.ok r, odb') →
      ∀ d, r.user = some d → hasPublicId d) ∧
    (∀ e rd, get_profile e (some db1) = Except.ok rd →
      ∀ d, rd = some d → hasPublicId d) ∧
    (∀ e p rd odb', update_profile e p (some db1) = (Except.ok rd, odb') →
      ∀ d, rd = some d → hasPublicId d) ∧
    (∀ c y l rds, directory c y l (some db1) = Except.ok rds →
      ∀ rd ∈ rds, ∀ d, rd = some d → hasPublicId d) ∧
    (∀ rds odb', events (some db1) = (rds, odb') →
      ∀ rd ∈ rds, ∀ d, rd = some d → hasPublicId d) ∧
    (∀ rd ∈ (events none).1, ∀ d, rd = some d →
      Doc.lookup d "_id" = none ∧ Doc.lookup d "id" = none)) :=
  ⟨db1_wf, responses_carry_external_id db1 db1_wf⟩

/-- C8 (evaluation at the failing inputs): the record auto-created by a
first login and the record created by a first signup carry no "is_active"
field at all, although the schema (schemas.py) declares `is_active` with
default true. -/
theorem created_users_lack_is_active :
    (login "new@x.com" (some emptyDB)).2 =
      some { user := [[("_id", BVal.vId 0), ("email", BVal.vStr "new@x.com"),
               ("status", BVal.vStr "student"), ("name", BVal.vStr "new")]],
             event := [], nextId := 1 } ∧
    Doc.lookup [("_id", BVal.vId 0), ("email", BVal.vStr "new@x.com"),
      ("status", BVal.vStr "student"), ("name", BVal.vStr "new")]
      "is_active" = none ∧
    (signup { name := "Ada", email := "a@x.com", status := "student" }
        (some emptyDB)).2 =
      some { user := [[("_id", BVal.vId 0), ("name", BVal.vStr "Ada"),
               ("email", BVal.vStr "a@x.com"), ("status", BVal.vStr "student")]],
             event := [], nextId := 1 } ∧
    Doc.lookup [("_id", BVal.vId 0), ("name", BVal.vStr "Ada"),
      ("email", BVal.vStr "a@x.com"), ("status", BVal.vStr "student")]
      "is_active" = none :=
  ⟨rfl, rfl, rfl, rfl⟩

/-- The projected id carried by an auth response's user record. -/
def userPublicId (r : AuthResponse) : Option BVal :=
  match r.user with
  | none => none
  | some d => Doc.lookup d "id"

/-- C9: a signup with an email that has no stored record, followed by a
login with the same email, yields two responses exposing the same projected
id (both operations resolve to the same stored record). -/
theorem signup_then_login_same_id (p : SignupPayload) (db : DB)
    (hwf : DB.WF db)
    (hnew : find_one_eq db.user "email" (BVal.vStr p.email) = none) :
    ∃ r1 db1r r2, signup p (some db) = (Except.ok r1, some db1r) ∧
      login p.email (some db1r) = (Except.ok r2, some db1r) ∧
      ∃ s, userPublicId r1 = some (BVal.vStr s) ∧
        userPublicId r2 = some (BVal.vStr s) := by
  obtain ⟨hwfu, -, -, -⟩ := hwf
  have hs := signup_not_found p db hwfu hnew
  set newRec : Doc := ("_id", BVal.vId db.nextId) :: signupData p with hnr
  have hfind : find_one_eq (db.user ++ [newRec]) "email"
      (BVal.vStr p.email) = some newRec := by
    rw [find_one_eq_append_none _ _ _ ((find_one_eq_none_iff _ _ _).mp hnew)]
    have hm : docMatchesEq "email" (BVal.vStr p.email) newRec = true := by
      simp [docMatchesEq, hnr, Doc.lookup, (signupData_keys p).2.1]
    simp [find_one_eq, hm]
  have hl := login_found p.email
    { db with user := db.user ++ [newRec], nextId := db.nextId + 1 } newRec
    (by
      show find_one_eq (db.user ++ [newRec]) "email"
        (BVal.vStr p.email) = some newRec
      exact hfind)
  have hknd : (newRec.map Prod.fst).Nodup := by
    rw [hnr]
    simp only [List.map_cons, List.nodup_cons]
    exact ⟨(Doc.lookup_none_iff _ _).mp (signupData_keys p).1,
      (signupData_keys p).2.2⟩
  have hidlk : Doc.lookup newRec "_id" = some (BVal.vId db.nextId) := by
    rw [hnr]
    simp [Doc.lookup]
  obtain ⟨hproj, hidk, -, -⟩ := to_public_with_id hidlk hknd
  refine ⟨_, _, _, hs, hl, bvalStr (BVal.vId db.nextId), ?_, ?_⟩
  · simp [userPublicId, hproj, hidk]
  · simp [userPublicId, hproj, hidk]

/-- A signup payload whose email has no record in the empty store. -/
def p9 : SignupPayload := { name := "Ada", email := "a9@x.com", status := "student" }

/-- Witness for C9: signup then login for `p9` on the empty store. -/
theorem signup_then_login_same_id_witness :
    DB.WF emptyDB ∧
    find_one_eq emptyDB.user "email" (BVal.vStr p9.email) = none ∧
    (∃ r1 db1r r2, signup p9 (some emptyDB) = (Except.ok r1, some db1r) ∧
      login p9.email (some db1r) = (Except.ok r2, some db1r) ∧
      ∃ s, userPublicId r1 = some (BVal.vStr s) ∧
        userPublicId r2 = some (BVal.vStr s)) :=
  ⟨emptyDB_wf, rfl, signup_then_login_same_id p9 emptyDB emptyDB_wf rfl⟩

/-- C10: a directory call whose company parameter is the empty string
behaves exactly as if the company filter were absent (the truthiness guard
drops it), while a supplied batch_year of 0 is still applied as an
exact-equality filter. -/
theorem directory_empty_company_ignored (year : Option Int) (limit : Nat)
    (odb : Option DB) :
    directory (some "") year limit odb = directory none year limit odb ∧
    (∀ db : DB, directory (some "") (some 0) limit (some db) =
      Except.ok (((db.user.filter (fun d =>
        decide (Doc.lookup d "batch_year" = some (BVal.vInt 0)))).take
          limit).map (fun d => to_public (some d)))) := by
  constructor
  · cases odb with
    | none => rfl
    | some db => rfl
  · intro db
    rw [directory_some]
    have hf : (fun d => matchesDir
        { company :=
            match some "" with
            | some c => if c = "" then none else some c
            | none => none,
          batch_year := some 0 } d) =
        (fun d => decide (Doc.lookup d "batch_year" = some (BVal.vInt 0))) := by
      funext d
      simp [matchesDir]
    rw [hf]
